import Mathlib

/-!
Verification development for the VAGEN-spati turn-based episode controller.

Shallow embedding of:
  * `SpatiEnv.reset` / `SpatiEnv.step` / `SpatiEnv.compute_reward`
    (src/vagen/env/spati/env.py), the deliberate/submit round protocol;
  * `SokobanEnv.step` (src/vagen/env_new/sokoban/env.py), the sequential
    multi-action executor with early exit.

Modelling conventions:
  * Python floats are modelled as exact rationals (`Rat`); every claim is
    about exact sums of configured constants, never about rounding.
  * The response parser (`parse_llm_raw_response` / `PARSE_FUNC_MAP`) lives
    outside this repository; `step` is embedded from the point where the
    parse result `rst` is available, as a function of a `ParsedTurn`
    (fields `actions`, `format_correct`, exactly the keys the step logic
    reads from the parser result).
  * The gym Sokoban simulation is an external collaborator; it is embedded
    as an abstract backend record (`SokBackend`) exposing the step
    function, the `boxes_on_target` / `num_boxes` fields used by
    `_success`, and the `player_position` observable.
-/

/-- Output of the external response parser, restricted to the keys the
episode controllers read: the ordered action-token list and the
format-correctness flag. -/
structure ParsedTurn where
  actions : List String
  format_correct : Bool
deriving Repr, DecidableEq

/-! ### Python string primitives used by `SpatiEnv.step`

`action.replace("submit", "").strip("()").strip().upper()` is re-implemented
character-by-character with Python semantics. -/

/-- Python `str.startswith`: list-level prefix test. -/
def pyStartsWith (s pre : String) : Bool :=
  pre.data.isPrefixOf s.data

/-- Fuel-driven worker for `pyReplace`; fuel is the length of the remaining
input, and each step consumes at least one character. -/
def pyReplaceAux (pat rep : List Char) : Nat → List Char → List Char
  | 0, s => s
  | _ + 1, [] => []
  | fuel + 1, c :: rest =>
    if pat ≠ [] ∧ pat.isPrefixOf (c :: rest) then
      rep ++ pyReplaceAux pat rep fuel ((c :: rest).drop pat.length)
    else
      c :: pyReplaceAux pat rep fuel rest

/-- Python `str.replace`: replace every non-overlapping occurrence of `pat`
from the left (for nonempty `pat`, the only way the source calls it). -/
def pyReplace (s pat rep : String) : String :=
  ⟨pyReplaceAux pat.data rep.data s.data.length s.data⟩

/-- Drop the characters satisfying `p` from both ends of a list. -/
def stripWhile (p : Char → Bool) (s : List Char) : List Char :=
  ((s.dropWhile p).reverse.dropWhile p).reverse

/-- Python `str.strip("()")`: remove leading and trailing parentheses. -/
def pyStripParens (s : String) : String :=
  ⟨stripWhile (fun c => c == '(' || c == ')') s.data⟩

/-- Python whitespace class used by bare `str.strip()`. -/
def pyIsSpace (c : Char) : Bool :=
  c == ' ' || c == '\t' || c == '\n' || c == '\r' || c == '\x0b' || c == '\x0c'

/-- Python bare `str.strip()`: remove leading and trailing whitespace. -/
def pyStripSpace (s : String) : String :=
  ⟨stripWhile pyIsSpace s.data⟩

/-- Python `str.upper()` on the ASCII range (the only range the choices
use). -/
def pyUpper (s : String) : String :=
  ⟨s.data.map Char.toUpper⟩

/-- The `choice` computation of `SpatiEnv.step` line 129:
`action.replace("submit", "").strip("()").strip().upper()`. -/
def processChoice (action : String) : String :=
  pyUpper (pyStripSpace (pyStripParens (pyReplace action "submit" "")))

/-! ### SpatiEnv: configuration, state, step -/

/-- The configuration fields `SpatiEnv` reads (from `SpatiEnvConfig` plus the
round-protocol fields `max_rounds`, `delay_penalty_after`,
`per_step_penalty` the step code accesses on the config object). -/
structure SpatiConfig where
  max_actions_per_step : Nat
  traj_success_reward : Rat
  traj_fail_penalty : Rat
  format_reward : Rat
  per_step_penalty : Rat
  delay_penalty_after : Nat
  max_rounds : Nat
deriving Repr, DecidableEq

/-- The `info` dictionary fields the spati controller writes. -/
structure SpatiInfo where
  env_step : Nat
  is_format_rewarded : Bool
  env_feedback : String
  done : Bool
deriving Repr, DecidableEq

/-- Mutable per-episode attributes of `SpatiEnv` (`total_reward`, `reward`,
`done`, `round_idx`, `answered`, `info`), plus the `answer` field of the
current sample (a 0-based option index per the dataset contract). -/
structure SpatiState where
  total_reward : Rat
  reward : Rat
  done : Bool
  round_idx : Nat
  answered : Bool
  info : SpatiInfo
  sampleAnswer : Nat
deriving Repr, DecidableEq

/-- `idx_to_letter = ["A", "B", "C", "D"]` (env.py line 130). -/
def idx_to_letter : List String := ["A", "B", "C", "D"]

/-- Ground-truth letter for an answer index (defaulting for out-of-range,
used only in theorem statements under an in-range hypothesis). -/
def gtLetter (answer : Nat) : String := idx_to_letter.getD answer ""

/-- `SpatiEnv.reset` (env.py lines 92-102): select the sample
`(seed or 0) % len(dataset)` and reinitialize all per-episode state. The
dataset is abstracted to the list of its `answer` fields, the only sample
field the step logic consumes. -/
def SpatiEnv.reset (dataset : List Nat) (seed : Option Nat) : SpatiState :=
  let idx := (seed.getD 0) % dataset.length
  { total_reward := 0
    reward := 0
    done := false
    round_idx := 0
    answered := false
    info := { env_step := 0, is_format_rewarded := false, env_feedback := "", done := false }
    sampleAnswer := dataset.getD idx 0 }

/-- The `try` block of `SpatiEnv.step` (env.py lines 124-149), evaluated when
`is_valid` holds on entry. Returns
`(reward, done, is_valid, answered, env_feedback)` as updated by the block.
The caught `IndexError` from `idx_to_letter[int(answer)]` with an
out-of-range answer is the `none` branch of the lookup: it leaves reward and
state untouched and clears `is_valid`. -/
def spatiTry (cfg : SpatiConfig) (st : SpatiState) (action : String) :
    Rat × Bool × Bool × Bool × String :=
  if pyStartsWith action "submit" then
    match idx_to_letter.get? st.sampleAnswer with
    | none => (0, false, false, st.answered, "")
    | some gt =>
      let choice := processChoice action
      let r := if choice == gt then cfg.traj_success_reward else cfg.traj_fail_penalty
      (r, true, true, true, "Answer received.")
  else if pyStartsWith action "deliberate" then
    let r : Rat := if cfg.delay_penalty_after ≤ st.round_idx then -cfg.per_step_penalty else 0
    (r, false, true, st.answered,
      "Deliberation noted. You may continue or submit your final answer.")
  else
    (0, false, false, st.answered, "")

/-- Result of one `SpatiEnv.step` call: the new instance state and the
returned `(reward, done, info)` components (the rendered observation is out
of scope). -/
structure SpatiStepResult where
  state : SpatiState
  reward : Rat
  done : Bool
  info : SpatiInfo
deriving Repr, DecidableEq

/-- `SpatiEnv.step` (env.py lines 105-173) from the point where the parse
result `rst` is available. Control flow: validity check (exactly one action
and correct format), the try block, the invalid-format feedback, the round
bump with forced termination at `max_rounds`, and the bookkeeping writes.
`info` is rebuilt from a fresh dict each call (line 119), so
`self.info.get("env_step", 0) + 1` on line 170 reads the default `0`. -/
def SpatiEnv.step (cfg : SpatiConfig) (st : SpatiState) (rst : ParsedTurn) : SpatiStepResult :=
  let is_valid0 : Bool := rst.actions.length == 1 && rst.format_correct
  let tryOut :=
    if is_valid0 then spatiTry cfg st (rst.actions.headD "")
    else (0, false, false, st.answered, "")
  let reward1 := tryOut.1
  let done1 := tryOut.2.1
  let is_valid := tryOut.2.2.1
  let answered1 := tryOut.2.2.2.1
  let feedback1 := tryOut.2.2.2.2
  let feedback2 :=
    if is_valid then feedback1
    else "Invalid format. Use <think>...</think> for deliberation or <answer>X</answer> to submit."
  let round2 := st.round_idx + 1
  let forced : Bool := !done1 && decide (cfg.max_rounds ≤ round2)
  let done2 : Bool := done1 || forced
  let reward2 := if forced && !answered1 then reward1 + cfg.traj_fail_penalty else reward1
  let feedback3 :=
    if forced && !answered1 then "Max rounds reached without an answer. Episode terminated."
    else feedback2
  let info : SpatiInfo :=
    { env_step := 0 + 1, is_format_rewarded := is_valid, env_feedback := feedback3,
      done := done2 }
  let total2 := st.total_reward + reward2
  { state :=
      { total_reward := total2, reward := reward2, done := done2, round_idx := round2,
        answered := answered1, info := info, sampleAnswer := st.sampleAnswer }
    reward := reward2
    done := done2
    info := info }

/-- `SpatiEnv.compute_reward` (env.py lines 175-177). -/
def SpatiEnv.compute_reward (st : SpatiState) : Rat := st.total_reward

/-- Iterated `step`: final state after feeding the parsed turns in order. -/
def spatiRun (cfg : SpatiConfig) : SpatiState → List ParsedTurn → SpatiState
  | st, [] => st
  | st, t :: ts => spatiRun cfg (SpatiEnv.step cfg st t).state ts

/-- The list of `reward` values returned by the successive `step` calls. -/
def spatiRewards (cfg : SpatiConfig) : SpatiState → List ParsedTurn → List Rat
  | _, [] => []
  | st, t :: ts =>
    (SpatiEnv.step cfg st t).reward :: spatiRewards cfg (SpatiEnv.step cfg st t).state ts

/-! Turn-classification predicates mirroring the branch conditions of
`SpatiEnv.step`, used in theorem statements. -/

/-- The validity test of env.py line 122: exactly one parsed action and
correct format. -/
def validSingle (rst : ParsedTurn) : Bool :=
  rst.actions.length == 1 && rst.format_correct

/-- First parsed action (the step code only reads it when `validSingle`). -/
def turnAction (rst : ParsedTurn) : String := rst.actions.headD ""

/-- The turn takes the submission path to termination: valid, the action
starts with `submit`, and the ground-truth lookup succeeds. -/
def submits (answer : Nat) (rst : ParsedTurn) : Bool :=
  validSingle rst && pyStartsWith (turnAction rst) "submit" && decide (answer < 4)

/-- The turn takes the deliberation path: valid, not a submission prefix,
and the action starts with `deliberate`. -/
def deliberateTurn (rst : ParsedTurn) : Bool :=
  validSingle rst && !pyStartsWith (turnAction rst) "submit" &&
    pyStartsWith (turnAction rst) "deliberate"

/-- Reward contribution of the deliberation branch for a turn entered at
round index `i`. -/
def delibPenalty (cfg : SpatiConfig) (i : Nat) (rst : ParsedTurn) : Rat :=
  if deliberateTurn rst && decide (cfg.delay_penalty_after ≤ i) then -cfg.per_step_penalty else 0

/-- Sum of the deliberation penalties over a turn list starting at round
index `i`. -/
def delibPenaltySum (cfg : SpatiConfig) : Nat → List ParsedTurn → Rat
  | _, [] => 0
  | i, t :: ts => delibPenalty cfg i t + delibPenaltySum cfg (i + 1) ts

/-! ### SokobanEnv: abstract backend, executor loop, step -/

/-- ACTION_LOOKUP (sokoban/env.py lines 23-28). -/
def ACTION_LOOKUP (a : String) : Option Nat :=
  if a == "Up" then some 1
  else if a == "Down" then some 2
  else if a == "Left" then some 3
  else if a == "Right" then some 4
  else none

/-- Abstract gym Sokoban backend over a state type: `stepFn` is
`env.step(action_int)` returning the mutated state and the step reward;
`boxes_on_target` and `num_boxes` feed `_success`; `pos` is
`env.player_position` (a row/column pair). -/
structure SokBackend (sigma : Type) where
  stepFn : sigma → Nat → sigma × Rat
  boxes_on_target : sigma → Nat
  num_boxes : Nat
  pos : sigma → Int × Int

/-- `SokobanEnv._success` (sokoban/env.py lines 151-152). -/
def sokSuccess (B : SokBackend sigma) (s : sigma) : Bool :=
  B.boxes_on_target s == B.num_boxes

/-- Loop-exit data of the action loop (sokoban/env.py lines 83-95):
final backend state, accumulated reward, the per-action step rewards in
order, the `valid_actions` list, the loop-local `done` flag, the
`metrics` success flag, whether the unrecognized-token break fired, and
the number of backend invocations. -/
structure ExecOut (sigma : Type) where
  st : sigma
  reward : Rat
  stepRewards : List Rat
  valid_actions : List String
  done : Bool
  success : Bool
  invalidHit : Bool
  calls : Nat

/-- The `for action in action_list` loop of `SokobanEnv.step` (lines 83-95):
recognized tokens invoke the backend, accumulate reward and re-test
`_success` (breaking on success); the first unrecognized token breaks with
the invalid mark and no backend call. -/
def sokExec (B : SokBackend sigma) : List String → sigma → ExecOut sigma
  | [], s => ⟨s, 0, [], [], false, false, false, 0⟩
  | a :: rest, s =>
    match ACTION_LOOKUP a with
    | some actionInt =>
      let out := B.stepFn s actionInt
      let d := sokSuccess B out.1
      if d then
        ⟨out.1, out.2, [out.2], [a], true, true, false, 1⟩
      else
        let o := sokExec B rest out.1
        ⟨o.st, out.2 + o.reward, out.2 :: o.stepRewards, a :: o.valid_actions,
          o.done, o.success, o.invalidHit, o.calls + 1⟩
    | none => ⟨s, 0, [], [], false, false, true, 0⟩

/-- Configuration consumed by the sokoban turn logic. -/
structure SokConfig where
  format_reward : Rat
deriving Repr, DecidableEq

/-- Result of one `SokobanEnv.step` call: backend state, returned reward and
done flag, the three metrics entries, `valid_actions`, and the updated
running total. -/
structure SokStepResult (sigma : Type) where
  state : sigma
  reward : Rat
  done : Bool
  action_is_valid : Bool
  action_is_effective : Bool
  success : Bool
  valid_actions : List String
  total_reward : Rat

/-- `SokobanEnv.step` (sokoban/env.py lines 61-101) from the point where the
parse result is available: record the previous player position, run the
action loop, add `format_reward` when `action_is_valid` survived the loop,
set `action_is_effective` by comparing the previous and current player
positions, and accumulate the total. `action_is_valid` starts as
`action_list != []` (line 72) and the loop clears it at the first
unrecognized token. -/
def SokobanEnv.step (cfg : SokConfig) (B : SokBackend sigma) (s : sigma)
    (total_reward : Rat) (rst : ParsedTurn) : SokStepResult sigma :=
  let prev_player_position := B.pos s
  let o := sokExec B rst.actions s
  let action_is_valid : Bool := !(rst.actions == []) && !o.invalidHit
  let reward := o.reward + (if action_is_valid then cfg.format_reward else 0)
  let action_is_effective : Bool := !(B.pos o.st == prev_player_position)
  { state := o.st
    reward := reward
    done := o.done
    action_is_valid := action_is_valid
    action_is_effective := action_is_effective
    success := o.success
    valid_actions := o.valid_actions
    total_reward := total_reward + reward }

/-- Modelled from the spec (section 4.2): whether at least one executed
action of the turn produced an observable state change, i.e. the player
position moved across that single backend invocation. Tracks the same
early-exit discipline as the executor. This is the comparison point for the
`action_is_effective` claim; it is not computed by the source. -/
def specAnyStateChange (B : SokBackend sigma) : List String → sigma → Bool
  | [], _ => false
  | a :: rest, s =>
    match ACTION_LOOKUP a with
    | some actionInt =>
      let out := B.stepFn s actionInt
      let changed : Bool := !(B.pos out.1 == B.pos s)
      if sokSuccess B out.1 then changed
      else changed || specAnyStateChange B rest out.1
    | none => false

/-! ### Reward components of a spati turn (decomposition used to state the
per-turn reward formula) -/

/-- Terminal submit component of a spati turn reward: success or fail reward
on the submission path, zero otherwise. -/
def spatiSubmitComponent (cfg : SpatiConfig) (st : SpatiState) (rst : ParsedTurn) : Rat :=
  if submits st.sampleAnswer rst then
    (if processChoice (turnAction rst) == gtLetter st.sampleAnswer then cfg.traj_success_reward
     else cfg.traj_fail_penalty)
  else 0

/-- Forced round-limit component of a spati turn reward: the fail penalty
when a non-submitting turn of a still-unanswered episode reaches
`max_rounds`. -/
def spatiForcedComponent (cfg : SpatiConfig) (st : SpatiState) (rst : ParsedTurn) : Rat :=
  if !submits st.sampleAnswer rst && !st.answered &&
      decide (cfg.max_rounds ≤ st.round_idx + 1) then
    cfg.traj_fail_penalty
  else 0

/-! ### Concrete fixtures for witnesses and counterexamples -/

/-- Scenario configuration from the spec: `penalty_delay_rounds = 1`,
`per_round_penalty = 0.1`, `max_rounds = 4`, success `1.0`, fail `-1.0`,
format reward `0.5` (the `SpatiEnvConfig` default). -/
def cfgScenario : SpatiConfig :=
  { max_actions_per_step := 1, traj_success_reward := 1, traj_fail_penalty := -1,
    format_reward := 1/2, per_step_penalty := 1/10, delay_penalty_after := 1, max_rounds := 4 }

/-- Same rewards with a round limit of 2. -/
def cfgTwoRounds : SpatiConfig :=
  { cfgScenario with max_rounds := 2 }

/-- One-sample dataset whose ground-truth answer index is 0 (letter A). -/
def stInit : SpatiState := SpatiEnv.reset [0] Option.none

/-- A well-formed deliberation turn. -/
def tDeliberate : ParsedTurn := ⟨["deliberate()"], true⟩

/-- A well-formed submission of choice A. -/
def tSubmitA : ParsedTurn := ⟨["submit(A)"], true⟩

/-- A well-formed submission of the out-of-option choice E. -/
def tSubmitE : ParsedTurn := ⟨["submit(E)"], true⟩

/-- A turn whose parse produced nothing valid. -/
def tInvalid : ParsedTurn := ⟨[], false⟩

/-- Sokoban config with the default format reward `0.5`. -/
def sokCfgHalf : SokConfig := ⟨1/2⟩

/-- Backend over `Nat` states that reports success after any action
(`num_boxes = 0`, as for a boxless room). -/
def BInstantSuccess : SokBackend Nat :=
  { stepFn := fun s _ => (s + 1, 0), boxes_on_target := fun _ => 0, num_boxes := 0,
    pos := fun _ => (0, 0) }

/-- Backend over `Int` positions on a line: `Up` moves right, `Down` moves
left, success never triggers. -/
def BLine : SokBackend Int :=
  { stepFn := fun s a => (if a == 1 then s + 1 else if a == 2 then s - 1 else s, 0),
    boxes_on_target := fun _ => 0, num_boxes := 1,
    pos := fun s => (s, 0) }

/-! ### Helper lemmas: SpatiEnv.step field behavior -/

/-- Every step bumps the round index by exactly one, on every control path. -/
theorem step_state_round_idx (cfg : SpatiConfig) (st : SpatiState) (rst : ParsedTurn) :
    (SpatiEnv.step cfg st rst).state.round_idx = st.round_idx + 1 := rfl

/-- The sample is untouched by stepping. -/
theorem step_state_sampleAnswer (cfg : SpatiConfig) (st : SpatiState) (rst : ParsedTurn) :
    (SpatiEnv.step cfg st rst).state.sampleAnswer = st.sampleAnswer := rfl

/-- The running total is the old total plus the returned reward. -/
theorem step_state_total (cfg : SpatiConfig) (st : SpatiState) (rst : ParsedTurn) :
    (SpatiEnv.step cfg st rst).state.total_reward =
      st.total_reward + (SpatiEnv.step cfg st rst).reward := rfl

/-- The `env_step` entry of the returned info is rebuilt from a fresh dict,
hence always `0 + 1`. -/
theorem step_info_env_step (cfg : SpatiConfig) (st : SpatiState) (rst : ParsedTurn) :
    (SpatiEnv.step cfg st rst).info.env_step = 1 := rfl

/-- The terminated flag of the incoming state is never read by `step`. -/
theorem step_ignores_done (cfg : SpatiConfig) (st : SpatiState) (rst : ParsedTurn)
    (d₁ d₂ : Bool) :
    SpatiEnv.step cfg { st with done := d₁ } rst =
      SpatiEnv.step cfg { st with done := d₂ } rst := rfl

/-- Round index after a run: one increment per processed turn. -/
theorem spatiRun_round_idx (cfg : SpatiConfig) (st : SpatiState) (ts : List ParsedTurn) :
    (spatiRun cfg st ts).round_idx = st.round_idx + ts.length := by
  induction ts generalizing st with
  | nil => simp [spatiRun]
  | cons t ts ih =>
    rw [spatiRun, ih, step_state_round_idx]
    simp [Nat.add_comm, Nat.add_assoc, Nat.add_left_comm]

/-- Total after a run: old total plus the sum of the returned rewards. -/
theorem spatiRun_total (cfg : SpatiConfig) (st : SpatiState) (ts : List ParsedTurn) :
    (spatiRun cfg st ts).total_reward = st.total_reward + (spatiRewards cfg st ts).sum := by
  induction ts generalizing st with
  | nil => simp [spatiRun, spatiRewards]
  | cons t ts ih =>
    rw [spatiRun, spatiRewards, ih, step_state_total]
    rw [List.sum_cons, add_assoc]

/-- The sample answer after a run. -/
theorem spatiRun_sampleAnswer (cfg : SpatiConfig) (st : SpatiState) (ts : List ParsedTurn) :
    (spatiRun cfg st ts).sampleAnswer = st.sampleAnswer := by
  induction ts generalizing st with
  | nil => rfl
  | cons t ts ih => rw [spatiRun, ih, step_state_sampleAnswer]

theorem idx_to_letter_lookup_lt (n : Nat) (h : n < 4) :
    idx_to_letter[n]? = some (gtLetter n) := by
  interval_cases n <;> rfl

theorem idx_to_letter_lookup_ge (n : Nat) (h : 4 ≤ n) :
    idx_to_letter[n]? = none := by
  apply List.getElem?_eq_none
  simpa [idx_to_letter] using h

theorem step_submit (cfg : SpatiConfig) (st : SpatiState) (rst : ParsedTurn)
    (h : submits st.sampleAnswer rst = true) :
    (SpatiEnv.step cfg st rst).reward =
      (if processChoice (turnAction rst) == gtLetter st.sampleAnswer then
        cfg.traj_success_reward else cfg.traj_fail_penalty) ∧
    (SpatiEnv.step cfg st rst).done = true ∧
    (SpatiEnv.step cfg st rst).state.answered = true := by
  have h' := h
  simp only [submits, Bool.and_eq_true, decide_eq_true_eq] at h'
  obtain ⟨⟨hv, hsub⟩, hlt⟩ := h'
  simp only [SpatiEnv.step, validSingle] at *
  rw [hv]
  simp only [if_true]
  simp [spatiTry, turnAction] at hsub ⊢
  rw [hsub]
  simp [idx_to_letter_lookup_lt _ hlt]

theorem step_nonsubmit (cfg : SpatiConfig) (st : SpatiState) (rst : ParsedTurn)
    (h : submits st.sampleAnswer rst = false) :
    (SpatiEnv.step cfg st rst).reward =
      delibPenalty cfg st.round_idx rst +
        (if cfg.max_rounds ≤ st.round_idx + 1 ∧ st.answered = false then cfg.traj_fail_penalty
         else 0) ∧
    (SpatiEnv.step cfg st rst).state.answered = st.answered ∧
    (SpatiEnv.step cfg st rst).done = decide (cfg.max_rounds ≤ st.round_idx + 1) := by
  cases ha : st.answered <;>
  · by_cases hv : validSingle rst = true
    · by_cases hsub : pyStartsWith (turnAction rst) "submit" = true
      · have hge : 4 ≤ st.sampleAnswer := by
          by_contra hcon
          push_neg at hcon
          simp [submits, hv, hsub, hcon] at h
        simp only [SpatiEnv.step, validSingle] at *
        rw [hv]
        simp only [if_true]
        simp [spatiTry, turnAction] at hsub ⊢
        rw [hsub]
        simp [idx_to_letter_lookup_ge _ hge, ha, delibPenalty, deliberateTurn, turnAction, hsub]
      · by_cases hdel : pyStartsWith (turnAction rst) "deliberate" = true
        · simp only [SpatiEnv.step, validSingle] at *
          rw [hv]
          simp only [if_true]
          simp [spatiTry, turnAction] at hsub hdel ⊢
          rw [hsub, hdel]
          simp [ha, delibPenalty, deliberateTurn, turnAction, hsub, hdel, validSingle, hv]
          all_goals try (split_ifs <;> simp)
        · simp only [SpatiEnv.step, validSingle] at *
          simp [spatiTry, turnAction] at hsub hdel
          rw [hv]
          simp only [if_true]
          simp [spatiTry, turnAction, hsub, hdel, ha, delibPenalty, deliberateTurn, validSingle]
    · simp only [SpatiEnv.step, validSingle] at *
      simp only [Bool.not_eq_true] at hv
      simp [hv, ha, delibPenalty, deliberateTurn, validSingle]
theorem step_state_done (cfg : SpatiConfig) (st : SpatiState) (rst : ParsedTurn) :
    (SpatiEnv.step cfg st rst).state.done = (SpatiEnv.step cfg st rst).done := rfl

theorem run_nonsubmit (cfg : SpatiConfig) (ts : List ParsedTurn) (st : SpatiState)
    (ha : st.answered = false)
    (hns : ∀ t ∈ ts, submits st.sampleAnswer t = false)
    (hlen : st.round_idx + ts.length ≤ cfg.max_rounds) :
    (spatiRun cfg st ts).answered = false ∧
    (spatiRun cfg st ts).total_reward =
      st.total_reward + delibPenaltySum cfg st.round_idx ts +
        (if st.round_idx + ts.length = cfg.max_rounds ∧ ts ≠ [] then cfg.traj_fail_penalty
         else 0) ∧
    (spatiRun cfg st ts).done =
      (if ts = [] then st.done
       else decide (cfg.max_rounds ≤ st.round_idx + ts.length)) := by
  induction ts generalizing st with
  | nil => simp [spatiRun, delibPenaltySum, ha]
  | cons t ts ih =>
    simp only [List.length_cons] at hlen
    obtain ⟨hrew, hansw0, hdone⟩ := step_nonsubmit cfg st t (hns t (List.mem_cons_self t ts))
    have hansw : (SpatiEnv.step cfg st t).state.answered = false := hansw0.trans ha
    have hsample := step_state_sampleAnswer cfg st t
    have hround := step_state_round_idx cfg st t
    have htotal := step_state_total cfg st t
    have hsdone := step_state_done cfg st t
    have hrun : spatiRun cfg st (t :: ts) = spatiRun cfg (SpatiEnv.step cfg st t).state ts := rfl
    by_cases hnil : ts = []
    · subst hnil
      refine ⟨?_, ?_, ?_⟩
      · simpa [spatiRun] using hansw
      · simp only [hrun, spatiRun, delibPenaltySum, List.length_cons, List.length_nil]
        rw [htotal, hrew]
        rcases le_or_lt cfg.max_rounds (st.round_idx + 1) with hle | hlt
        · rw [if_pos ⟨hle, ha⟩, if_pos (show st.round_idx + (0 + 1) = cfg.max_rounds ∧ (t :: ([] : List ParsedTurn)) ≠ [] from ⟨by omega, by simp⟩)]
          ring
        · rw [if_neg (by
            rintro ⟨h1, -⟩
            omega), if_neg (by
            rintro ⟨heq, -⟩
            omega)]
          ring
      · simp only [hrun, spatiRun, List.length_cons, List.length_nil]
        rw [hsdone, hdone]
        simp
    · have hlenpos : 1 ≤ ts.length := List.length_pos.mpr hnil
      have hns1 : ∀ u ∈ ts, submits (SpatiEnv.step cfg st t).state.sampleAnswer u = false := by
        intro u hu
        rw [hsample]
        exact hns u (List.mem_cons_of_mem _ hu)
      have hlen1 : (SpatiEnv.step cfg st t).state.round_idx + ts.length ≤ cfg.max_rounds := by
        rw [hround]
        omega
      obtain ⟨ih1, ih2, ih3⟩ := ih (SpatiEnv.step cfg st t).state hansw hns1 hlen1
      have hnotforced : ¬ cfg.max_rounds ≤ st.round_idx + 1 := by omega
      refine ⟨by rw [hrun]; exact ih1, ?_, ?_⟩
      · rw [hrun, ih2, htotal, hrew, if_neg (by
          rintro ⟨h1, -⟩
          exact hnotforced h1), hround]
        simp only [delibPenaltySum, List.length_cons, hnil]
        by_cases heq : st.round_idx + 1 + ts.length = cfg.max_rounds
        · rw [if_pos ⟨heq, hnil⟩, if_pos (show st.round_idx + (ts.length + 1) = cfg.max_rounds ∧ (t :: ts) ≠ [] from ⟨by omega, by simp⟩)]
          ring
        · rw [if_neg (by
            rintro ⟨h1, -⟩
            exact heq h1), if_neg (by
            rintro ⟨h1, -⟩
            omega)]
          ring
      · rw [hrun, ih3, if_neg hnil, if_neg (show (t :: ts) ≠ [] by simp), hround]
        congr 1
        simp only [List.length_cons]
        congr 1
        omega

/-! ### Helper lemmas: the sokoban executor loop -/

/-- The loop accumulator equals the sum of the per-action step rewards it
collects. -/
theorem sokExec_reward_eq_sum (B : SokBackend sigma) (as : List String) (s : sigma) :
    (sokExec B as s).reward = (sokExec B as s).stepRewards.sum := by
  induction as generalizing s with
  | nil => simp [sokExec]
  | cons a rest ih =>
    rw [sokExec]
    rcases hl : ACTION_LOOKUP a with _ | actionInt
    · simp [sokExec]
    · simp only []
      by_cases hd : sokSuccess B (B.stepFn s actionInt).1 = true
      · simp [hd]
      · rw [Bool.not_eq_true] at hd
        simp [hd, ih]

/-- Backend-call count of the loop never exceeds the action-list length. -/
theorem sokExec_calls_le (B : SokBackend sigma) (as : List String) (s : sigma) :
    (sokExec B as s).calls ≤ as.length := by
  induction as generalizing s with
  | nil => simp [sokExec]
  | cons a rest ih =>
    rw [sokExec]
    rcases hl : ACTION_LOOKUP a with _ | actionInt
    · simp [sokExec]
    · simp only []
      by_cases hd : sokSuccess B (B.stepFn s actionInt).1 = true
      · simp [hd]
      · rw [Bool.not_eq_true] at hd
        simp only [hd, if_false, List.length_cons, ite_false]
        exact Nat.succ_le_succ (ih _)

/-- Behaviour of the loop on a list whose prefix is fully recognized and
non-terminal, followed by an unrecognized token: execution is exactly the
prefix execution, the invalid mark is set, and nothing after the bogus
token runs. -/
theorem sokExec_invalid_at (B : SokBackend sigma) (pre : List String) (bogus : String)
    (post : List String) (s : sigma)
    (hpre : ∀ a ∈ pre, (ACTION_LOOKUP a).isSome)
    (hbogus : ACTION_LOOKUP bogus = none)
    (hnosucc : (sokExec B pre s).success = false) :
    (sokExec B (pre ++ bogus :: post) s).calls = pre.length ∧
    (sokExec B (pre ++ bogus :: post) s).invalidHit = true ∧
    (sokExec B (pre ++ bogus :: post) s).st = (sokExec B pre s).st ∧
    (sokExec B (pre ++ bogus :: post) s).stepRewards = (sokExec B pre s).stepRewards ∧
    (sokExec B (pre ++ bogus :: post) s).valid_actions = (sokExec B pre s).valid_actions ∧
    (sokExec B (pre ++ bogus :: post) s).done = false ∧
    (sokExec B (pre ++ bogus :: post) s).reward = (sokExec B pre s).reward := by
  induction pre generalizing s with
  | nil =>
    simp only [List.nil_append, List.length_nil]
    simp [sokExec, hbogus]
  | cons a pre ih =>
    have ha : (ACTION_LOOKUP a).isSome := hpre a (List.mem_cons_self a pre)
    rcases hl : ACTION_LOOKUP a with _ | actionInt
    · rw [hl] at ha
      simp at ha
    · have hd : sokSuccess B (B.stepFn s actionInt).1 = false := by
        by_contra hcon
        rw [Bool.not_eq_false] at hcon
        rw [sokExec, hl] at hnosucc
        simp [hcon] at hnosucc
      have hnosucc' : (sokExec B pre (B.stepFn s actionInt).1).success = false := by
        rw [sokExec, hl] at hnosucc
        simpa [hd] using hnosucc
      have hpre' : ∀ u ∈ pre, (ACTION_LOOKUP u).isSome := fun u hu =>
        hpre u (List.mem_cons_of_mem _ hu)
      obtain ⟨ihc, ihi, ihs, ihr, ihv, ihd, ihw⟩ := ih (B.stepFn s actionInt).1 hpre' hnosucc'
      rw [List.cons_append]
      rw [sokExec, hl]
      simp only [hd, if_false, ite_false]
      rw [sokExec, hl]
      simp only [hd, if_false, ite_false]
      exact ⟨by simp [ihc], by simp [ihi], by simp [ihs], by simp [ihr], by simp [ihv],
        by simp [ihd], by simp [ihw]⟩

/-- If no executed action of the turn changed the player position, the
final position equals the initial one. -/
theorem sokExec_pos_of_noChange (B : SokBackend sigma) (as : List String) (s : sigma)
    (h : specAnyStateChange B as s = false) :
    B.pos (sokExec B as s).st = B.pos s := by
  induction as generalizing s with
  | nil => simp [sokExec]
  | cons a rest ih =>
    rw [sokExec]
    rw [specAnyStateChange] at h
    rcases hl : ACTION_LOOKUP a with _ | actionInt
    · simp [sokExec]
    · rw [hl] at h
      simp only [] at h ⊢
      by_cases hd : sokSuccess B (B.stepFn s actionInt).1 = true
      · simp [hd] at h ⊢
        simpa using h
      · rw [Bool.not_eq_true] at hd
        simp [hd] at h ⊢
        rw [ih _ h.2]
        exact h.1

/-! ### Claim theorems -/

/-- C2: for every episode and every number of step calls N made after a
reset, `total_reward` equals the sum of the N returned step rewards,
`compute_reward` returns that sum, and reset zeroes `total_reward`. -/
theorem spati_total_reward_is_sum (cfg : SpatiConfig) (dataset : List Nat)
    (seed : Option Nat) (ts : List ParsedTurn) :
    (SpatiEnv.reset dataset seed).total_reward = 0 ∧
    (spatiRun cfg (SpatiEnv.reset dataset seed) ts).total_reward =
      (spatiRewards cfg (SpatiEnv.reset dataset seed) ts).sum ∧
    SpatiEnv.compute_reward (spatiRun cfg (SpatiEnv.reset dataset seed) ts) =
      (spatiRewards cfg (SpatiEnv.reset dataset seed) ts).sum := by
  refine ⟨rfl, ?_, ?_⟩
  · rw [spatiRun_total]
    simp [SpatiEnv.reset]
  · rw [SpatiEnv.compute_reward, spatiRun_total]
    simp [SpatiEnv.reset]

/-- C7: after N step calls since reset, the round index equals exactly N,
regardless of the turns' validity, for any protocol with `max_rounds > N`. -/
theorem spati_round_idx_counts_steps (cfg : SpatiConfig) (dataset : List Nat)
    (seed : Option Nat) (N : Nat) (ts : List ParsedTurn)
    (hlen : ts.length = N) (_hmax : N < cfg.max_rounds) :
    (spatiRun cfg (SpatiEnv.reset dataset seed) ts).round_idx = N := by
  rw [spatiRun_round_idx]
  simp [SpatiEnv.reset, hlen]

/-- Witness for C7 at a concrete two-step episode mixing a valid and an
invalid turn. -/
theorem spati_round_idx_counts_steps_witness :
    ([tDeliberate, tInvalid] : List ParsedTurn).length = 2 ∧ 2 < cfgScenario.max_rounds ∧
    (spatiRun cfgScenario (SpatiEnv.reset [0] Option.none) [tDeliberate, tInvalid]).round_idx = 2 :=
  ⟨by decide, by decide,
    spati_round_idx_counts_steps cfgScenario [0] Option.none 2 [tDeliberate, tInvalid]
      (by decide) (by decide)⟩

/-- C8 counterexample: stepping a terminated, un-reset episode is neither
refused nor a no-op: a second submission after `done = true` is processed
and its reward is silently added to `total_reward`. -/
theorem spati_step_after_done_accumulates_cex :
    (SpatiEnv.step cfgScenario stInit tSubmitA).state.done = true ∧
    (SpatiEnv.step cfgScenario (SpatiEnv.step cfgScenario stInit tSubmitA).state
        tSubmitA).reward = 1 ∧
    (SpatiEnv.step cfgScenario (SpatiEnv.step cfgScenario stInit tSubmitA).state
        tSubmitA).state.total_reward =
      (SpatiEnv.step cfgScenario stInit tSubmitA).state.total_reward + 1 ∧
    (SpatiEnv.step cfgScenario stInit tSubmitA).state.total_reward + 1 ≠
      (SpatiEnv.step cfgScenario stInit tSubmitA).state.total_reward := by
  refine ⟨rfl, rfl, ?_, ?_⟩
  · rw [step_state_total,
      show (SpatiEnv.step cfgScenario (SpatiEnv.step cfgScenario stInit tSubmitA).state
        tSubmitA).reward = 1 from rfl]
  · simp

/-- C8 amended: `step` never reads the terminated flag — a post-termination
call behaves exactly like a pre-termination call and keeps accumulating the
returned reward into `total_reward`. -/
theorem spati_step_after_done_policy (cfg : SpatiConfig) (st : SpatiState)
    (rst : ParsedTurn) (d₁ d₂ : Bool) :
    SpatiEnv.step cfg { st with done := d₁ } rst =
      SpatiEnv.step cfg { st with done := d₂ } rst ∧
    (SpatiEnv.step cfg st rst).state.total_reward =
      st.total_reward + (SpatiEnv.step cfg st rst).reward :=
  ⟨rfl, rfl⟩

/-- C9: the `env_step` entry is rebuilt from a fresh info dict on every
step, so it equals 1 after the second call instead of counting to 2 (reset
initializes it to 0 and line 170 reads that fresh dict's default). -/
theorem spati_env_step_stuck_at_one :
    stInit.info.env_step = 0 ∧
    (SpatiEnv.step cfgScenario stInit tDeliberate).info.env_step = 1 ∧
    (SpatiEnv.step cfgScenario (SpatiEnv.step cfgScenario stInit tDeliberate).state
        tDeliberate).info.env_step = 1 ∧
    (1 : Nat) ≠ 2 :=
  ⟨rfl, rfl, rfl, by decide⟩

/-- C1: an episode that never submits terminates exactly at the
`max_rounds`-th step with `done = true` and the fail penalty applied exactly
once (the accumulated total is the deliberation penalties plus one fail
penalty, and every earlier prefix is not done); and a turn that terminates
by explicit submission receives exactly the submission component — the
forced round-limit branch does not additionally fire. -/
theorem spati_round_limit_single_terminal (cfg : SpatiConfig) (dataset : List Nat)
    (seed : Option Nat) (ts : List ParsedTurn) (n : Nat) (st : SpatiState) (t : ParsedTurn)
    (_hmax : 1 ≤ cfg.max_rounds)
    (hlen : ts.length = cfg.max_rounds)
    (hns : ∀ u ∈ ts, submits (SpatiEnv.reset dataset seed).sampleAnswer u = false)
    (hn : n < cfg.max_rounds)
    (hsub : submits st.sampleAnswer t = true) :
    (spatiRun cfg (SpatiEnv.reset dataset seed) ts).done = true ∧
    (spatiRun cfg (SpatiEnv.reset dataset seed) ts).total_reward =
      delibPenaltySum cfg 0 ts + cfg.traj_fail_penalty ∧
    (spatiRun cfg (SpatiEnv.reset dataset seed) (ts.take n)).done = false ∧
    (SpatiEnv.step cfg st t).done = true ∧
    (SpatiEnv.step cfg st t).state.answered = true ∧
    (SpatiEnv.step cfg st t).reward =
      (if processChoice (turnAction t) == gtLetter st.sampleAnswer then cfg.traj_success_reward
       else cfg.traj_fail_penalty) := by
  have hreset_ans : (SpatiEnv.reset dataset seed).answered = false := rfl
  have hreset_round : (SpatiEnv.reset dataset seed).round_idx = 0 := rfl
  have hreset_total : (SpatiEnv.reset dataset seed).total_reward = 0 := rfl
  have hreset_done : (SpatiEnv.reset dataset seed).done = false := rfl
  have hne : ts ≠ [] := by
    intro hcon
    rw [hcon] at hlen
    simp at hlen
    omega
  obtain ⟨-, htot, hdone⟩ := run_nonsubmit cfg ts (SpatiEnv.reset dataset seed) hreset_ans hns
    (by rw [hreset_round, hlen]; omega)
  obtain ⟨hr, hd, ha⟩ := step_submit cfg st t hsub
  refine ⟨?_, ?_, ?_, hd, ha, hr⟩
  · rw [hdone, if_neg hne, hreset_round, hlen]
    simp
  · rw [htot, hreset_total, hreset_round, hlen,
      if_pos (show 0 + cfg.max_rounds = cfg.max_rounds ∧ ts ≠ [] from ⟨by omega, hne⟩)]
    ring
  · have hnsT : ∀ u ∈ ts.take n, submits (SpatiEnv.reset dataset seed).sampleAnswer u = false :=
      fun u hu => hns u (List.take_subset n ts hu)
    have hlenT : (SpatiEnv.reset dataset seed).round_idx + (ts.take n).length ≤ cfg.max_rounds := by
      rw [hreset_round, List.length_take, hlen]
      omega
    obtain ⟨-, -, hdoneT⟩ := run_nonsubmit cfg (ts.take n) (SpatiEnv.reset dataset seed)
      hreset_ans hnsT hlenT
    rw [hdoneT]
    by_cases h0 : ts.take n = []
    · rw [if_pos h0]
      exact hreset_done
    · rw [if_neg h0, hreset_round, decide_eq_false]
      rw [List.length_take, hlen]
      omega

/-- Witness for C1: a two-round never-submitting episode, its one-step
prefix, and an explicit submission turn. -/
theorem spati_round_limit_single_terminal_witness :
    (1 ≤ cfgTwoRounds.max_rounds ∧
      ([tDeliberate, tDeliberate] : List ParsedTurn).length = cfgTwoRounds.max_rounds ∧
      (∀ u ∈ ([tDeliberate, tDeliberate] : List ParsedTurn),
        submits (SpatiEnv.reset [0] Option.none).sampleAnswer u = false) ∧
      1 < cfgTwoRounds.max_rounds ∧ submits stInit.sampleAnswer tSubmitE = true) ∧
    ((spatiRun cfgTwoRounds (SpatiEnv.reset [0] Option.none)
        [tDeliberate, tDeliberate]).done = true ∧
      (spatiRun cfgTwoRounds (SpatiEnv.reset [0] Option.none)
          [tDeliberate, tDeliberate]).total_reward =
        delibPenaltySum cfgTwoRounds 0 [tDeliberate, tDeliberate] +
          cfgTwoRounds.traj_fail_penalty ∧
      (spatiRun cfgTwoRounds (SpatiEnv.reset [0] Option.none)
          (([tDeliberate, tDeliberate] : List ParsedTurn).take 1)).done = false ∧
      (SpatiEnv.step cfgTwoRounds stInit tSubmitE).done = true ∧
      (SpatiEnv.step cfgTwoRounds stInit tSubmitE).state.answered = true ∧
      (SpatiEnv.step cfgTwoRounds stInit tSubmitE).reward =
        (if processChoice (turnAction tSubmitE) == gtLetter stInit.sampleAnswer then
          cfgTwoRounds.traj_success_reward else cfgTwoRounds.traj_fail_penalty)) :=
  ⟨⟨by decide, by decide, by decide, by decide, by decide⟩,
    spati_round_limit_single_terminal cfgTwoRounds [0] Option.none
      [tDeliberate, tDeliberate] 1 stInit tSubmitE (by decide) (by decide) (by decide)
      (by decide) (by decide)⟩

/-- C3: on a valid deliberation turn the per-round penalty is charged
exactly when the round index at the start of the turn has reached
`delay_penalty_after`, and the turn terminates only when the round limit is
reached; concretely, with delay 1 and penalty 0.1 the first deliberation
rewards 0 and the second rewards -0.1. -/
theorem spati_deliberate_penalty_iff (cfg : SpatiConfig) (st : SpatiState) (rst : ParsedTurn)
    (hd : deliberateTurn rst = true) :
    (SpatiEnv.step cfg st rst).reward =
      (if cfg.delay_penalty_after ≤ st.round_idx then -cfg.per_step_penalty else 0) +
        (if cfg.max_rounds ≤ st.round_idx + 1 ∧ st.answered = false then cfg.traj_fail_penalty
         else 0) ∧
    (SpatiEnv.step cfg st rst).done = decide (cfg.max_rounds ≤ st.round_idx + 1) ∧
    (SpatiEnv.step cfgScenario stInit tDeliberate).reward = 0 ∧
    (SpatiEnv.step cfgScenario (SpatiEnv.step cfgScenario stInit tDeliberate).state
        tDeliberate).reward = -(1/10 : Rat) := by
  have hd' := hd
  simp only [deliberateTurn, Bool.and_eq_true, Bool.not_eq_true'] at hd'
  have hns : submits st.sampleAnswer rst = false := by
    simp [submits, hd'.1.2]
  obtain ⟨hrew, -, hdone⟩ := step_nonsubmit cfg st rst hns
  refine ⟨?_, hdone, rfl, rfl⟩
  rw [hrew]
  simp [delibPenalty, hd]

/-- Witness for C3 on a concrete valid deliberation turn. -/
theorem spati_deliberate_penalty_iff_witness :
    deliberateTurn tDeliberate = true ∧
    ((SpatiEnv.step cfgScenario stInit tDeliberate).reward =
      (if cfgScenario.delay_penalty_after ≤ stInit.round_idx then -cfgScenario.per_step_penalty
       else 0) +
        (if cfgScenario.max_rounds ≤ stInit.round_idx + 1 ∧ stInit.answered = false then
          cfgScenario.traj_fail_penalty else 0) ∧
    (SpatiEnv.step cfgScenario stInit tDeliberate).done =
      decide (cfgScenario.max_rounds ≤ stInit.round_idx + 1) ∧
    (SpatiEnv.step cfgScenario stInit tDeliberate).reward = 0 ∧
    (SpatiEnv.step cfgScenario (SpatiEnv.step cfgScenario stInit tDeliberate).state
        tDeliberate).reward = -(1/10 : Rat)) :=
  ⟨by decide, spati_deliberate_penalty_iff cfgScenario stInit tDeliberate (by decide)⟩

/-- C10: a valid submission whose processed choice differs from the
ground-truth letter — including choices outside the option set such as E —
still terminates the episode with `answered = true` and the fail penalty:
a malformed choice is scored as a wrong answer, not rejected. -/
theorem spati_malformed_choice_scored_wrong (cfg : SpatiConfig) (st : SpatiState)
    (rst : ParsedTurn) (a : String)
    (hact : rst.actions = [a]) (hfc : rst.format_correct = true)
    (hsubp : pyStartsWith a "submit" = true) (hans : st.sampleAnswer < 4)
    (hwrong : processChoice a ≠ gtLetter st.sampleAnswer) :
    (SpatiEnv.step cfg st rst).done = true ∧
    (SpatiEnv.step cfg st rst).state.answered = true ∧
    (SpatiEnv.step cfg st rst).reward = cfg.traj_fail_penalty := by
  have hsub : submits st.sampleAnswer rst = true := by
    simp [submits, validSingle, turnAction, hact, hfc, hsubp, hans]
  obtain ⟨hr, hd, ha⟩ := step_submit cfg st rst hsub
  refine ⟨hd, ha, ?_⟩
  rw [hr]
  have : (processChoice (turnAction rst) == gtLetter st.sampleAnswer) = false := by
    rw [turnAction, hact]
    simpa using hwrong
  rw [this]
  simp

/-- Witness for C10: submitting E against ground truth A. -/
theorem spati_malformed_choice_scored_wrong_witness :
    (tSubmitE.actions = ["submit(E)"] ∧ tSubmitE.format_correct = true ∧
      pyStartsWith "submit(E)" "submit" = true ∧ stInit.sampleAnswer < 4 ∧
      processChoice "submit(E)" ≠ gtLetter stInit.sampleAnswer) ∧
    ((SpatiEnv.step cfgScenario stInit tSubmitE).done = true ∧
      (SpatiEnv.step cfgScenario stInit tSubmitE).state.answered = true ∧
      (SpatiEnv.step cfgScenario stInit tSubmitE).reward = cfgScenario.traj_fail_penalty) :=
  ⟨⟨by decide, by decide, by decide, by decide, by decide⟩,
    spati_malformed_choice_scored_wrong cfgScenario stInit tSubmitE "submit(E)"
      (by decide) (by decide) (by decide) (by decide) (by decide)⟩

/-- C4 counterexample: with a backend that reports success on the first
action, an unrecognized token at position 2 is never reached — the loop
breaks on success first, so `action_is_valid` stays `true` (and the format
bonus is granted), contradicting the unconditional claim. -/
theorem sok_invalid_token_cex :
    ACTION_LOOKUP "Bogus" = none ∧ (ACTION_LOOKUP "Up").isSome = true ∧
    (SokobanEnv.step sokCfgHalf BInstantSuccess 0 0 ⟨["Up", "Bogus"], true⟩).action_is_valid =
      true ∧
    (sokExec BInstantSuccess ["Up", "Bogus"] 0).calls = 1 ∧
    (sokExec BInstantSuccess ["Up", "Bogus"] 0).success = true := by
  refine ⟨rfl, rfl, rfl, rfl, rfl⟩

/-- C4 amended: provided no executed action before the unrecognized token
reports terminal success, an unrecognized token at position k causes exactly
k-1 backend invocations, clears `action_is_valid`, never applies anything
after position k (state and executed actions are those of the prefix), and
the turn reward is the sum of the k-1 step rewards with no format bonus. -/
theorem sok_invalid_token_halts (cfg : SokConfig) (B : SokBackend sigma) (s : sigma)
    (tot : Rat) (pre : List String) (bogus : String) (post : List String) (fc : Bool)
    (hpre : ∀ a ∈ pre, (ACTION_LOOKUP a).isSome = true)
    (hbogus : ACTION_LOOKUP bogus = none)
    (hnosucc : (sokExec B pre s).success = false) :
    (sokExec B (pre ++ bogus :: post) s).calls = pre.length ∧
    (SokobanEnv.step cfg B s tot ⟨pre ++ bogus :: post, fc⟩).action_is_valid = false ∧
    (SokobanEnv.step cfg B s tot ⟨pre ++ bogus :: post, fc⟩).state = (sokExec B pre s).st ∧
    (SokobanEnv.step cfg B s tot ⟨pre ++ bogus :: post, fc⟩).valid_actions =
      (sokExec B pre s).valid_actions ∧
    (SokobanEnv.step cfg B s tot ⟨pre ++ bogus :: post, fc⟩).reward =
      (sokExec B pre s).stepRewards.sum := by
  obtain ⟨ihc, ihi, ihs, ihr, ihv, ihd, ihw⟩ := sokExec_invalid_at B pre bogus post s
    hpre hbogus hnosucc
  refine ⟨ihc, ?_, ?_, ?_, ?_⟩
  · simp [SokobanEnv.step, ihi]
  · simp [SokobanEnv.step, ihs]
  · simp [SokobanEnv.step, ihv]
  · simp [SokobanEnv.step, ihi, ihw]
    rw [sokExec_reward_eq_sum]

/-- Witness for C4 amended: the Up-Bogus-Down scenario on the line backend
(one backend call, invalid turn, Down never applied). -/
theorem sok_invalid_token_halts_witness :
    ((∀ a ∈ (["Up"] : List String), (ACTION_LOOKUP a).isSome = true) ∧
      ACTION_LOOKUP "Bogus" = none ∧ (sokExec BLine ["Up"] 0).success = false) ∧
    ((sokExec BLine (["Up"] ++ "Bogus" :: ["Down"]) 0).calls = (["Up"] : List String).length ∧
      (SokobanEnv.step sokCfgHalf BLine 0 0
          ⟨["Up"] ++ "Bogus" :: ["Down"], true⟩).action_is_valid = false ∧
      (SokobanEnv.step sokCfgHalf BLine 0 0 ⟨["Up"] ++ "Bogus" :: ["Down"], true⟩).state =
        (sokExec BLine ["Up"] 0).st ∧
      (SokobanEnv.step sokCfgHalf BLine 0 0 ⟨["Up"] ++ "Bogus" :: ["Down"], true⟩).valid_actions =
        (sokExec BLine ["Up"] 0).valid_actions ∧
      (SokobanEnv.step sokCfgHalf BLine 0 0 ⟨["Up"] ++ "Bogus" :: ["Down"], true⟩).reward =
        (sokExec BLine ["Up"] 0).stepRewards.sum) :=
  ⟨⟨by decide, by decide, by decide⟩,
    sok_invalid_token_halts sokCfgHalf BLine 0 0 ["Up"] "Bogus" ["Down"] true
      (by decide) (by decide) (by decide)⟩

/-- C5 counterexample: the turn Up-then-Down moves the player on each
action (each action produced an observable state change) but ends at the
starting square, and the code flags the turn ineffective — the claimed
per-action iff fails. -/
theorem sok_effective_net_cex :
    (SokobanEnv.step sokCfgHalf BLine 0 0 ⟨["Up", "Down"], true⟩).action_is_valid = true ∧
    specAnyStateChange BLine ["Up", "Down"] 0 = true ∧
    BLine.pos ((BLine.stepFn 0 1).1) ≠ BLine.pos 0 ∧
    (SokobanEnv.step sokCfgHalf BLine 0 0 ⟨["Up", "Down"], true⟩).action_is_effective =
      false := by
  refine ⟨rfl, rfl, by decide, rfl⟩

/-- C5 amended: `action_is_effective` is true iff the player position at
the end of the turn differs from the position at its start (net change);
consequently a turn in which no executed action changed the position is
flagged ineffective, but so is a turn whose moves cancel out. -/
theorem sok_effective_iff_net_position (cfg : SokConfig) (B : SokBackend sigma) (s : sigma)
    (tot : Rat) (rst : ParsedTurn) :
    ((SokobanEnv.step cfg B s tot rst).action_is_effective = true ↔
      B.pos (sokExec B rst.actions s).st ≠ B.pos s) ∧
    ((SokobanEnv.step cfg B s tot rst).action_is_effective &&
      !specAnyStateChange B rst.actions s) = false := by
  constructor
  · simp [SokobanEnv.step]
  · by_cases h : specAnyStateChange B rst.actions s = true
    · simp [h]
    · rw [Bool.not_eq_true] at h
      have hpos := sokExec_pos_of_noChange B rst.actions s h
      simp [SokobanEnv.step, hpos, h]

/-- On a submitting turn the deliberation penalty is zero (the action has
the submit prefix, so the deliberate branch is unreachable). -/
theorem delibPenalty_of_submits (cfg : SpatiConfig) (i answer : Nat) (rst : ParsedTurn)
    (h : submits answer rst = true) :
    delibPenalty cfg i rst = 0 := by
  simp only [submits, Bool.and_eq_true] at h
  simp [delibPenalty, deliberateTurn, h.1.2]

/-- C6 counterexample: a valid spati deliberation turn is marked
format-rewarded, yet its returned reward is 0 rather than the claimed
`0 + format_reward + 0 + 0` (SpatiEnv never adds the format component to
the reward). -/
theorem turn_reward_formula_cex :
    (SpatiEnv.step cfgScenario stInit tDeliberate).info.is_format_rewarded = true ∧
    cfgScenario.format_reward = 1/2 ∧
    (SpatiEnv.step cfgScenario stInit tDeliberate).reward = 0 ∧
    (0 : Rat) ≠ 0 + cfgScenario.format_reward + 0 + 0 := by
  refine ⟨rfl, rfl, rfl, ?_⟩
  norm_num [cfgScenario]

/-- C6 amended: in SokobanEnv the turn reward is the sum of the executed
step rewards plus the format bonus exactly when the turn is valid; in
SpatiEnv the turn reward is the submit component plus the deliberation
penalty plus the forced round-limit component, and the configured
`format_reward` never contributes (the env only reports validity in info). -/
theorem turn_reward_formula (cfg : SokConfig) (B : SokBackend sigma) (s : sigma)
    (tot : Rat) (rst : ParsedTurn)
    (cfg2 : SpatiConfig) (st2 : SpatiState) (rst2 : ParsedTurn) (x : Rat) :
    (SokobanEnv.step cfg B s tot rst).reward =
      (sokExec B rst.actions s).stepRewards.sum +
        (if (SokobanEnv.step cfg B s tot rst).action_is_valid then cfg.format_reward else 0) ∧
    (SpatiEnv.step cfg2 st2 rst2).reward =
      spatiSubmitComponent cfg2 st2 rst2 + delibPenalty cfg2 st2.round_idx rst2 +
        spatiForcedComponent cfg2 st2 rst2 ∧
    (SpatiEnv.step { cfg2 with format_reward := x } st2 rst2).reward =
      (SpatiEnv.step cfg2 st2 rst2).reward := by
  refine ⟨?_, ?_, rfl⟩
  · simp only [SokobanEnv.step]
    rw [sokExec_reward_eq_sum]
  · by_cases hsub : submits st2.sampleAnswer rst2 = true
    · obtain ⟨hr, -, -⟩ := step_submit cfg2 st2 rst2 hsub
      rw [hr, delibPenalty_of_submits cfg2 st2.round_idx st2.sampleAnswer rst2 hsub]
      simp [spatiSubmitComponent, spatiForcedComponent, hsub]
    · rw [Bool.not_eq_true] at hsub
      obtain ⟨hr, -, -⟩ := step_nonsubmit cfg2 st2 rst2 hsub
      rw [hr]
      simp only [spatiSubmitComponent, spatiForcedComponent, hsub, Bool.not_false,
        Bool.true_and, Bool.false_eq_true, if_false, ite_false]
      cases ha : st2.answered
      · simp [ha]
      · simp [ha]
